import Mathlib

/-!
Verification of the pattern-detection-and-sanitization core of the
content-generation pipeline: the "deadly sins" detector
(src/utils/deadly_sins_detector.py), the content sanitizer
(src/utils/content_sanitizer.py) and the style-compliance controller
(src/nodes/style_compliance.py).

The Python code matches text with `re` regular expressions.  The patterns in
the sources use only a small fragment of `re`: case-insensitive literals
(every detection and fix pattern is compiled with `re.IGNORECASE`),
character classes, ordered alternation `(?:a|b|c)`, greedy `\s*` and `\s+`,
and the lazy `.+?` (optionally capturing).  The embedding below implements a
backtracking matcher for exactly that fragment with Python's semantics:
leftmost match, alternatives tried left to right, greedy quantifiers longest
first, lazy quantifiers shortest first, `.` not matching a newline,
`finditer` yielding non-overlapping matches scanning left to right, and
`sub` replacing those matches in a single pass (replacement text is not
rescanned).  Text is a `List Char`.
-/

namespace DeadlySins

/-- Python `\s` for the inputs at hand: ASCII whitespace. -/
def isPyWs (c : Char) : Bool :=
  c == ' ' || c == '\t' || c == '\n' || c == '\r' || c == '\x0b' || c == '\x0c'

/-- Regular-expression fragment used by the source's patterns. -/
inductive RE where
  /-- a literal, matched case-insensitively (all source patterns use `re.IGNORECASE`) -/
  | lit : List Char → RE
  /-- a character class `[...]`, matched exactly -/
  | cls : List Char → RE
  /-- concatenation -/
  | seq : RE → RE → RE
  /-- ordered alternation `(?:a|b)` -/
  | alt : RE → RE → RE
  /-- greedy `\s*` -/
  | wsStar : RE
  /-- greedy `\s+` -/
  | wsPlus : RE
  /-- lazy `.+?`, optionally a capture group with the given index -/
  | dotPlusLazy : Option Nat → RE

/-- Weight of a regex, the termination measure of the matcher. -/
def RE.w : RE → Nat
  | .lit _ => 1
  | .cls _ => 1
  | .seq a b => a.w + b.w + 1
  | .alt a b => a.w + b.w + 1
  | .wsStar => 1
  | .wsPlus => 1
  | .dotPlusLazy _ => 1

/-- Weight of a stack of regexes still to match. -/
def stackW : List RE → Nat
  | [] => 0
  | r :: K => r.w + stackW K

/-- Consume a literal case-insensitively; `none` when it does not match here. -/
def eatLitCI : List Char → List Char → Option (List Char)
  | [], s => some s
  | _ :: _, [] => none
  | c :: cs, d :: s => if c.toLower == d.toLower then eatLitCI cs s else none

/-- Length of the whitespace run at the head of the input. -/
def wsRun : List Char → Nat
  | [] => 0
  | c :: s => if isPyWs c then wsRun s + 1 else 0

/-- Length of the run of characters matched by `.` (anything but a newline). -/
def dotRun : List Char → Nat
  | [] => 0
  | c :: s => if c == '\n' then 0 else dotRun s + 1

/-- Captured groups: group index paired with the captured characters; the
most recent capture of an index is first. -/
abbrev Groups := List (Nat × List Char)

/-- Backtracking matcher: match the stack of regexes against a prefix of the
input, in Python order (alternatives left to right, `\s*`/`\s+` longest
first, `.+?` shortest first).  Returns the rest of the input and the captured
groups of the first overall success.  The recursion is structural on `fuel`
so that the kernel can evaluate the matcher on concrete inputs; every
recursive call strictly shrinks the stack weight while spending one unit of
fuel, so any fuel above `stackW K` never runs out (`tryM_fuel_mono` below
makes that exact). -/
def tryM : Nat → List RE → List Char → Groups → Option (List Char × Groups)
  | 0, _, _, _ => none
  | _ + 1, [], s, g => some (s, g)
  | fuel + 1, .lit cs :: K, s, g =>
    match eatLitCI cs s with
    | some s2 => tryM fuel K s2 g
    | none => none
  | fuel + 1, .cls cs :: K, s, g =>
    match s with
    | [] => none
    | c :: s2 => if cs.contains c then tryM fuel K s2 g else none
  | fuel + 1, .seq a b :: K, s, g => tryM fuel (a :: b :: K) s g
  | fuel + 1, .alt a b :: K, s, g =>
    match tryM fuel (a :: K) s g with
    | some r => some r
    | none => tryM fuel (b :: K) s g
  | fuel + 1, .wsStar :: K, s, g =>
    (List.range (wsRun s + 1)).reverse.findSome? fun k => tryM fuel K (s.drop k) g
  | fuel + 1, .wsPlus :: K, s, g =>
    ((List.range (wsRun s + 1)).reverse.filter fun k => decide (0 < k)).findSome?
      fun k => tryM fuel K (s.drop k) g
  | fuel + 1, .dotPlusLazy gi :: K, s, g =>
    (List.range (dotRun s)).findSome? fun i =>
      tryM fuel K (s.drop (i + 1))
        (match gi with
         | some n => (n, s.take (i + 1)) :: g
         | none => g)

/-- Match the regex at the start of the input: the length of the match and
its groups, per Python's backtracking order.  `r.w + 1` units of fuel always
suffice for the stack `[r]`. -/
def matchHere (r : RE) (s : List Char) : Option (Nat × Groups) :=
  match tryM (r.w + 1) [r] s [] with
  | some (rest, g) => some (s.length - rest.length, g)
  | none => none

/-- One match of `finditer`: start offset, end offset, matched text, groups. -/
structure MatchInfo where
  start : Nat
  stop : Nat
  text : List Char
  groups : Groups
deriving DecidableEq

/-- Python `re.finditer`: scan left to right, yield non-overlapping matches;
after a non-empty match continue at its end, after an empty one advance by
one character.  Structural on `fuel`; every step consumes at least one input
character, so `s.length + 1` units suffice. -/
def findIterAux (r : RE) : Nat → List Char → Nat → List MatchInfo
  | 0, _, _ => []
  | _ + 1, [], pos =>
    match matchHere r [] with
    | some (_, g) => [⟨pos, pos, [], g⟩]
    | none => []
  | fuel + 1, c :: tail, pos =>
    match matchHere r (c :: tail) with
    | some (len, g) =>
      if len = 0 then
        ⟨pos, pos, [], g⟩ :: findIterAux r fuel tail (pos + 1)
      else
        ⟨pos, pos + len, (c :: tail).take len, g⟩ ::
          findIterAux r fuel ((c :: tail).drop len) (pos + len)
    | none => findIterAux r fuel tail (pos + 1)

/-- All matches of the pattern in the text. -/
def findIter (r : RE) (s : List Char) : List MatchInfo :=
  findIterAux r (s.length + 1) s 0

/-- Python `re.sub` with a replacement function of the groups and the matched
text: replace every match in a single left-to-right pass; also counts the
replacements (the fix functions count their rewrites this way).  Structural
on `fuel`, with the same sufficiency argument as `findIterAux`. -/
def subAllAux (r : RE) (repl : Groups → List Char → List Char) :
    Nat → List Char → List Char × Nat
  | 0, _ => ([], 0)
  | _ + 1, [] =>
    match matchHere r [] with
    | some (_, g) => (repl g [], 1)
    | none => ([], 0)
  | fuel + 1, c :: tail =>
    match matchHere r (c :: tail) with
    | some (len, g) =>
      if len = 0 then
        match subAllAux r repl fuel tail with
        | (restOut, n) => (repl g [] ++ c :: restOut, n + 1)
      else
        match subAllAux r repl fuel ((c :: tail).drop len) with
        | (restOut, n) => (repl g ((c :: tail).take len) ++ restOut, n + 1)
    | none =>
      match subAllAux r repl fuel tail with
      | (restOut, n) => (c :: restOut, n)

/-- Replace every match of the pattern in the text, counting replacements. -/
def subAll (r : RE) (repl : Groups → List Char → List Char) (s : List Char) :
    List Char × Nat :=
  subAllAux r repl (s.length + 1) s

/-! Pattern library of `DeadlySinsDetector.__init__`
(src/utils/deadly_sins_detector.py, lines 12-48).  Helper combinators first:
`L` is a case-insensitive literal, `catL`/`altL` fold concatenation and
ordered alternation over a list. -/

/-- Literal regex from a string (matched case-insensitively, as every source
pattern is compiled with `re.IGNORECASE`). -/
def L (s : String) : RE := RE.lit s.toList

/-- Concatenation of a head regex and a list of regexes, left to right. -/
def catL (r : RE) (rs : List RE) : RE := rs.foldl RE.seq r

/-- Ordered alternation of a head regex and a list of regexes. -/
def altL (r : RE) (rs : List RE) : RE := rs.foldl RE.alt r

/-- Source `(?:It's not just|It's not merely|It's not only)`. -/
def prefJust : RE := altL (L "It's not just") [L "It's not merely", L "It's not only"]

/-- Source `(?:It's not|It is not|It isn't)`. -/
def prefNot : RE := altL (L "It's not") [L "It is not", L "It isn't"]

/-- Source `(?:it's|it is|but)`. -/
def contrTail : RE := altL (L "it's") [L "it is", L "but"]

/-- Source `[,;]`. -/
def clsPunct : RE := RE.cls [',', ';']

/-- Source `r"[—–]"`: em dash and en dash. -/
def reEmDash : RE := RE.cls ['—', '–']

/-- Source `r"(?:It's not just|It's not merely|It's not only).+?[,;]\s*(?:it's|it is|but).+?"`. -/
def reRhetorical : RE :=
  catL prefJust [.dotPlusLazy none, clsPunct, .wsStar, contrTail, .dotPlusLazy none]

/-- Source `r"(?:It's not|It is not|It isn't).+?[,;]\s*(?:it's|it is|but).+?"`. -/
def reAntithesis : RE :=
  catL prefNot [.dotPlusLazy none, clsPunct, .wsStar, contrTail, .dotPlusLazy none]

/-- Source `r"(?:It's not|It is not|It isn't)\s+(?:laziness|failure|mistake|problem).+?[,;]\s*(?:it's|it is|but).+?"`. -/
def reParadiastole : RE :=
  catL prefNot [.wsPlus, altL (L "laziness") [L "failure", L "mistake", L "problem"],
    .dotPlusLazy none, clsPunct, .wsStar, contrTail, .dotPlusLazy none]

/-- Source `r"(?:It's not just|It's not merely|It's not only)\s+(?:a cost|an expense|a problem).+?[,;]\s*(?:it's|it is|but).+?"`. -/
def reReframing : RE :=
  catL prefJust [.wsPlus, altL (L "a cost") [L "an expense", L "a problem"],
    .dotPlusLazy none, clsPunct, .wsStar, contrTail, .dotPlusLazy none]

/-- Source `r"(?:It's not what).+?(?:does to you|makes you|gives you).+?[,;]\s*(?:it's|it is|but).+?(?:you do with|make of|get from).+?"`. -/
def reChiasmus : RE :=
  catL (L "It's not what") [.dotPlusLazy none,
    altL (L "does to you") [L "makes you", L "gives you"],
    .dotPlusLazy none, clsPunct, .wsStar, contrTail, .dotPlusLazy none,
    altL (L "you do with") [L "make of", L "get from"], .dotPlusLazy none]

/-- Source `r"(?:It's not just|It's not merely|It's not only)\s+(?:a car|a product|a service|an app|a tool).+?[,;]\s*(?:it's|it is|but).+?"`. -/
def reTagline : RE :=
  catL prefJust [.wsPlus,
    altL (L "a car") [L "a product", L "a service", L "an app", L "a tool"],
    .dotPlusLazy none, clsPunct, .wsStar, contrTail, .dotPlusLazy none]

/-- One entry of the detector's pattern dictionary. -/
structure PatternInfo where
  name : String
  pattern : RE
  severity : String
  description : String

/-- The seven built-in rules of `DeadlySinsDetector.__init__`, in the
dictionary's insertion order. -/
def patterns : List PatternInfo :=
  [⟨"em_dash", reEmDash, "critical", "Em dash usage creates robotic pauses"⟩,
   ⟨"rhetorical_contrast", reRhetorical, "critical",
     "Rhetorical contrast creates artificial drama"⟩,
   ⟨"antithesis", reAntithesis, "critical", "Antithesis creates false dichotomies"⟩,
   ⟨"paradiastole", reParadiastole, "critical",
     "Paradiastole reclassifies concepts disingenuously"⟩,
   ⟨"reframing_contrast", reReframing, "critical",
     "Reframing contrast disconnects from reality"⟩,
   ⟨"chiasmus", reChiasmus, "critical", "Chiasmus creates contrived parallelism"⟩,
   ⟨"tagline_frame", reTagline, "critical",
     "Tagline framing feels like corporate jargon"⟩]

/-! Detector (`DeadlySinsDetector.detect_patterns` and helpers,
src/utils/deadly_sins_detector.py lines 50-145). -/

/-- Brand-voice context: `tone`, `themes` and `values` entries of the
`brand_voice` dictionary (`tone` optional, as the code checks `"tone" in
brand_voice`). -/
structure BrandVoice where
  tone : Option String
  themes : List String
  values : List String

/-- Per-rule violation details as `detect_patterns` stores them. -/
structure ViolationDetail where
  count : Nat
  positions : List (Nat × Nat)
  matchTexts : List (List Char)
  severity : String
  description : String
deriving DecidableEq

instance : Inhabited ViolationDetail := ⟨⟨0, [], [], "", ""⟩⟩

/-- Report returned by `detect_patterns`. -/
structure DetectionReport where
  violations : List (String × ViolationDetail)
  severityScore : ℚ
  violationPositions : List (Nat × Nat)
  falsePositiveScore : ℚ
  totalViolations : Nat

/-- Lowercase a character list (Python `str.lower`, ASCII here). -/
def lowerL (s : List Char) : List Char := s.map Char.toLower

/-- Whether `needle` is a prefix of `hay` (Python `str.startswith`, used to
build the substring test below). -/
def prefixB : List Char → List Char → Bool
  | [], _ => true
  | _ :: _, [] => false
  | c :: cs, d :: ds => c == d && prefixB cs ds

/-- Whether `needle` occurs in `hay` (Python `in` on strings). -/
def infixB (needle : List Char) : List Char → Bool
  | [] => needle.isEmpty
  | c :: cs => prefixB needle (c :: cs) || infixB needle cs

/-- Source `DeadlySinsDetector._calculate_false_positive_score` (lines
95-115): the fraction of matches containing a brand theme or value term,
case-insensitively. -/
def calcFalsePositiveScore (ms : List (List Char)) (bv : BrandVoice) : ℚ :=
  let brandTerms := bv.themes ++ bv.values
  let falsePositives :=
    (ms.filter fun m =>
      brandTerms.any fun term => infixB (lowerL term.toList) (lowerL m)).length
  if ms.length = 0 then 0 else (falsePositives : ℚ) / (ms.length : ℚ)

/-- Severity weights of `_calculate_severity_score` (lines 124-129), default
0.5 for an unknown severity (`severity_weights.get(..., 0.5)`). -/
def severityWeight (s : String) : ℚ :=
  if s = "critical" then 1
  else if s = "high" then 4/5
  else if s = "medium" then 1/2
  else if s = "low" then 1/5
  else 1/2

/-- Source `DeadlySinsDetector._calculate_severity_score` (lines 117-136):
accumulate count-weighted severity and total count over the violations, then
`total_score / max(total_violations, 1) if total_violations > 0 else 0.0`. -/
def calcSeverityScore (violations : List (String × ViolationDetail)) : ℚ :=
  let p := violations.foldl
    (fun (acc : ℚ × Nat) e =>
      (acc.1 + (e.2.count : ℚ) * severityWeight e.2.severity, acc.2 + e.2.count))
    (0, 0)
  if 0 < p.2 then p.1 / (max p.2 1 : ℕ) else 0

/-- Stable insertion into a list sorted by first component (Python `sorted`
with `key=lambda x: x[0]` is stable). -/
def insertByStart (x : Nat × Nat) : List (Nat × Nat) → List (Nat × Nat)
  | [] => [x]
  | y :: ys => if y.1 ≤ x.1 then y :: insertByStart x ys else x :: y :: ys

/-- Source `DeadlySinsDetector._get_all_positions` (lines 138-145): all spans
of all rules sorted by start position. -/
def getAllPositions (violations : List (String × ViolationDetail)) : List (Nat × Nat) :=
  (violations.foldr (fun e acc => e.2.positions ++ acc) []).foldr insertByStart []

/-- One iteration of the detection loop (lines 64-76): run a rule's pattern
over the text and record its violation details. -/
def ruleDetail (text : List Char) (pi : PatternInfo) : String × ViolationDetail :=
  let ms := findIter pi.pattern text
  (pi.name,
    { count := ms.length
      positions := ms.map fun m => (m.start, m.stop)
      matchTexts := ms.map fun m => m.text
      severity := pi.severity
      description := pi.description : ViolationDetail })

/-- The `violations` dictionary built by `detect_patterns`, in pattern order. -/
def detectViolations (text : List Char) : List (String × ViolationDetail) :=
  patterns.map (ruleDetail text)

/-- Source `DeadlySinsDetector.detect_patterns` (lines 50-93): run every rule
of the pattern library over the text, collect counts, spans and matched text,
and aggregate severity, positions, false-positive score and the total. -/
def detectPatterns (text : List Char) (brandVoice : Option BrandVoice) :
    DetectionReport :=
  let violations := detectViolations text
  let fps : ℚ :=
    match brandVoice with
    | none => 0
    | some bv =>
      (violations.map fun e =>
        if e.2.matchTexts.length ≠ 0 then calcFalsePositiveScore e.2.matchTexts bv else 0).sum
  { violations := violations
    severityScore := calcSeverityScore violations
    violationPositions := getAllPositions violations
    falsePositiveScore :=
      if patterns.length = 0 then 0 else fps / (patterns.length : ℚ)
    totalViolations := (violations.map fun e => e.2.count).sum }

/-! Sanitizer (`ContentSanitizer`, src/utils/content_sanitizer.py).  The fix
patterns capture with `(.+?)`; the capture groups are numbered 1, 2 (and 3
for chiasmus) left to right, exactly as in the source regexes. -/

/-- Source fix pattern of `_fix_rhetorical_contrast` (line 91):
`r"(?:It's not just|It's not merely|It's not only)\s+(.+?)\s*[,;]\s*(?:it's|it is|but)\s+(.+?)\."`. -/
def fxRhetorical : RE :=
  catL prefJust [.wsPlus, .dotPlusLazy (some 1), .wsStar, clsPunct, .wsStar,
    contrTail, .wsPlus, .dotPlusLazy (some 2), RE.cls ['.']]

/-- Source fix pattern of `_fix_antithesis` (line 118):
`r"(?:It's not|It is not|It isn't)\s+(.+?)\s*[,;]\s*(?:it's|it is|but)\s+(.+?)\."`. -/
def fxAntithesis : RE :=
  catL prefNot [.wsPlus, .dotPlusLazy (some 1), .wsStar, clsPunct, .wsStar,
    contrTail, .wsPlus, .dotPlusLazy (some 2), RE.cls ['.']]

/-- Source fix pattern of `_fix_paradiastole` (line 137):
`r"(?:It's not|It is not|It isn't)\s+(?:laziness|failure|mistake|problem|error)\s+(.+?)\s*[,;]\s*(?:it's|it is|but)\s+(.+?)\."`. -/
def fxParadiastole : RE :=
  catL prefNot [.wsPlus,
    altL (L "laziness") [L "failure", L "mistake", L "problem", L "error"],
    .wsPlus, .dotPlusLazy (some 1), .wsStar, clsPunct, .wsStar,
    contrTail, .wsPlus, .dotPlusLazy (some 2), RE.cls ['.']]

/-- Source fix pattern of `_fix_reframing_contrast` (line 156):
`r"(?:It's not just|It's not merely|It's not only)\s+(?:a cost|an expense|a problem|an issue)\s+(.+?)\s*[,;]\s*(?:it's|it is|but)\s+(.+?)\."`. -/
def fxReframing : RE :=
  catL prefJust [.wsPlus,
    altL (L "a cost") [L "an expense", L "a problem", L "an issue"],
    .wsPlus, .dotPlusLazy (some 1), .wsStar, clsPunct, .wsStar,
    contrTail, .wsPlus, .dotPlusLazy (some 2), RE.cls ['.']]

/-- Source fix pattern of `_fix_chiasmus` (line 175):
`r"(?:It's not what)\s+(.+?)\s+(?:does to you|makes you|gives you)\s*[,;]\s*(?:it's|it is|but)\s+(.+?)\s+(?:you do with|make of|get from)\s+(.+?)\."`. -/
def fxChiasmus : RE :=
  catL (L "It's not what") [.wsPlus, .dotPlusLazy (some 1), .wsPlus,
    altL (L "does to you") [L "makes you", L "gives you"],
    .wsStar, clsPunct, .wsStar, contrTail, .wsPlus, .dotPlusLazy (some 2),
    .wsPlus, altL (L "you do with") [L "make of", L "get from"],
    .wsPlus, .dotPlusLazy (some 3), RE.cls ['.']]

/-- Source fix pattern of `_fix_tagline_frame` (line 195):
`r"(?:It's not just|It's not merely|It's not only)\s+(?:a car|a product|a service|an app|a tool)\s+(.+?)\s*[,;]\s*(?:it's|it is|but)\s+(.+?)\."`. -/
def fxTagline : RE :=
  catL prefJust [.wsPlus,
    altL (L "a car") [L "a product", L "a service", L "an app", L "a tool"],
    .wsPlus, .dotPlusLazy (some 1), .wsStar, clsPunct, .wsStar,
    contrTail, .wsPlus, .dotPlusLazy (some 2), RE.cls ['.']]

/-- Em-dash removal pattern `r'\s*[—–]\s*'` (line 76; compiled without
`re.IGNORECASE`, which is irrelevant as it holds no letters). -/
def sEmDash : RE := catL RE.wsStar [RE.cls ['—', '–'], RE.wsStar]

/-- Double-comma cleanup pattern `r',\s*,'` (line 80). -/
def sDblComma : RE := catL (RE.cls [',']) [RE.wsStar, RE.cls [',']]

/-- Comma-before-period cleanup pattern `r',\s*\.'` (line 82). -/
def sCommaDot : RE := catL (RE.cls [',']) [RE.wsStar, RE.cls ['.']]

/-- Look up a captured group (empty when the index was never captured; the
source patterns always capture every group of a successful match). -/
def getGroup (g : Groups) (n : Nat) : List Char :=
  match g.find? fun e => e.1 == n with
  | some e => e.2
  | none => []

/-- Source `ContentSanitizer._remove_em_dashes` (lines 67-84): replace every
(possibly whitespace-padded) dash with `", "`, clean up double commas and
commas before periods; `changes` is taken from the report's count. -/
def removeEmDashes (text : List Char) (emDashViolations : ViolationDetail) :
    List Char × Nat :=
  match subAll sEmDash (fun _ _ => ", ".toList) text with
  | (t1, _) =>
    let changes := emDashViolations.count
    match subAll sDblComma (fun _ _ => ",".toList) t1 with
    | (t2, _) =>
      match subAll sCommaDot (fun _ _ => ".".toList) t2 with
      | (t3, _) => (t3, changes)

/-- Replacement of `_fix_rhetorical_contrast` (lines 93-108): tone-dependent
when a brand voice with a tone is given, else `"{first} and {second.lower()}."`. -/
def replRhetorical (bv : Option BrandVoice) (g : Groups) (_m : List Char) :
    List Char :=
  let first := getGroup g 1
  let second := getGroup g 2
  let neutral := first ++ " and ".toList ++ lowerL second ++ ".".toList
  match bv with
  | some b =>
    match b.tone with
    | some t =>
      if t == "conversational" then
        "Beyond ".toList ++ first ++ ", ".toList ++ lowerL second ++ ".".toList
      else if t == "professional" then
        "While ".toList ++ first ++ " is important, ".toList ++ lowerL second ++ ".".toList
      else neutral
    | none => neutral
  | none => neutral

/-- Replacement of `_fix_antithesis` (lines 120-127):
`"Rather than {first}, {second.lower()}."`. -/
def replAntithesis (g : Groups) (_m : List Char) : List Char :=
  "Rather than ".toList ++ getGroup g 1 ++ ", ".toList ++ lowerL (getGroup g 2) ++ ".".toList

/-- Replacement of `_fix_paradiastole` (lines 139-146):
`"This isn't {first}; instead, {second.lower()}."`. -/
def replParadiastole (g : Groups) (_m : List Char) : List Char :=
  "This isn't ".toList ++ getGroup g 1 ++ "; instead, ".toList ++
    lowerL (getGroup g 2) ++ ".".toList

/-- Replacement of `_fix_reframing_contrast` (lines 158-165):
`"While this involves {first}, it's primarily about {second.lower()}."`. -/
def replReframing (g : Groups) (_m : List Char) : List Char :=
  "While this involves ".toList ++ getGroup g 1 ++
    ", it's primarily about ".toList ++ lowerL (getGroup g 2) ++ ".".toList

/-- Replacement of `_fix_chiasmus` (lines 177-185):
`"The key isn't what {first_action} does to you, but what {second_action} you {object_ref}."`. -/
def replChiasmus (g : Groups) (_m : List Char) : List Char :=
  "The key isn't what ".toList ++ getGroup g 1 ++ " does to you, but what ".toList ++
    getGroup g 2 ++ " you ".toList ++ getGroup g 3 ++ ".".toList

/-- Replacement of `_fix_tagline_frame` (lines 197-204):
`"This {first} goes beyond just being a product—it's about {second.lower()}."`. -/
def replTagline (g : Groups) (_m : List Char) : List Char :=
  "This ".toList ++ getGroup g 1 ++
    " goes beyond just being a product—it's about ".toList ++
    lowerL (getGroup g 2) ++ ".".toList

/-- Count of a rule in a report:
`violations.get(name, {}).get("count", 0)` (lines 38 and 54). -/
def reportCount (rep : DetectionReport) (name : String) : Nat :=
  match rep.violations.find? fun e => e.1 == name with
  | some e => e.2.count
  | none => 0

/-- The `pattern_fixes` table of `sanitize_content` (lines 44-51), each fix
function already applied to the brand voice. -/
def patternFixes (bv : Option BrandVoice) :
    List (String × (List Char → List Char × Nat)) :=
  [("rhetorical_contrast", subAll fxRhetorical (replRhetorical bv)),
   ("antithesis", subAll fxAntithesis replAntithesis),
   ("paradiastole", subAll fxParadiastole replParadiastole),
   ("reframing_contrast", subAll fxReframing replReframing),
   ("chiasmus", subAll fxChiasmus replChiasmus),
   ("tagline_frame", subAll fxTagline replTagline)]

/-- Transformation log of `sanitize_content` (lines 27-32 and 60-63). -/
structure TransformationLog where
  originalLength : Nat
  transformationsApplied : List String
  patternsRemoved : List (String × Nat)
  brandPreservationScore : ℚ
  finalViolations : Nat
  finalLength : Nat

/-- One step of the `pattern_fixes` loop (lines 53-58): run the fix when the
report counts a violation for the rule; record it only when it changed
something (the text is reassigned either way). -/
def sanStep (violations : DetectionReport)
    (st : List Char × List String × List (String × Nat))
    (pf : String × (List Char → List Char × Nat)) :
    List Char × List String × List (String × Nat) :=
  match st with
  | (t, applied, removed) =>
    if 0 < reportCount violations pf.1 then
      match pf.2 t with
      | (t2, changes) =>
        if 0 < changes then
          (t2, applied ++ [pf.1 ++ "_fix"], removed ++ [(pf.1, changes)])
        else (t2, applied, removed)
    else (t, applied, removed)

/-- Source `ContentSanitizer.sanitize_content` (lines 14-65): em-dash removal
first when the report counts one, then the six contrastive fixes in order,
then a mandatory re-detection populating `final_violations`. -/
def sanitizeContent (text : List Char) (violations : DetectionReport)
    (brandVoice : Option BrandVoice) : List Char × TransformationLog :=
  let start : List Char × List String × List (String × Nat) :=
    if 0 < reportCount violations "em_dash" then
      let vd := ((violations.violations.find? fun e => e.1 == "em_dash").map
        fun e => e.2).getD default
      match removeEmDashes text vd with
      | (t1, changes) => (t1, ["em_dash_removal"], [("em_dash", changes)])
    else (text, [], [])
  match (patternFixes brandVoice).foldl (sanStep violations) start with
  | (finalText, applied, removed) =>
    let finalReport := detectPatterns finalText brandVoice
    (finalText,
      { originalLength := text.length
        transformationsApplied := applied
        patternsRemoved := removed
        brandPreservationScore := 1
        finalViolations := finalReport.totalViolations
        finalLength := finalText.length })

/-! Compliance controller (`StyleComplianceNode`, src/nodes/style_compliance.py).
The authenticity scorer is an external collaborator from the node's point of
view, so `exec` is parametrised by a scoring function from platform and
content text to a score result, mirroring the call to `score_authenticity`.
Scores are Python floats compared against integer thresholds; they are
modelled as rationals, which preserves the ordering the code uses. -/

/-- Result of `score_authenticity` as `exec` consumes it: the
`authenticity_score` and the `recommendations` list. -/
structure ScoreResult where
  authenticityScore : ℚ
  recommendations : List String
deriving DecidableEq

/-- Return value of `StyleComplianceNode.exec`.  The early `manual_review`
return (lines 33-38) carries no `revision_count` and no `all_compliant`
key, modelled by `none`. -/
structure ExecResult where
  complianceStatus : String
  reason : String
  authenticityScores : List (String × ScoreResult)
  recommendations : List String
  revisionCount : Option Nat
  allCompliant : Option Bool
deriving DecidableEq

/-- Lookup of a platform's violation total:
`quality_control["deadly_sins_violations"].get(platform, {}).get("total_violations", 0)`
(line 61); a platform absent from the map, or one whose entry has no total,
counts zero. -/
def dsvTotal (dsv : List (String × Nat)) (platform : String) : Nat :=
  match dsv.find? fun e => e.1 == platform with
  | some e => e.2
  | none => 0

/-- The per-platform loop of `exec` (lines 45-68): score every content
piece, record compliance (`authenticity_score >= 80` and a zero violation
total), and collect platform-prefixed recommendations of the non-compliant
ones.  Returns (authenticity_scores, all_compliant, recommendations). -/
def complianceLoop (dsv : List (String × Nat))
    (scoreFn : String → String → ScoreResult) :
    List (String × String) → List (String × ScoreResult) × Bool × List String
  | [] => ([], true, [])
  | (platform, content) :: rest =>
    let scoreResult := scoreFn platform content
    let isCompliant :=
      decide (80 ≤ scoreResult.authenticityScore) && decide (dsvTotal dsv platform = 0)
    match complianceLoop dsv scoreFn rest with
    | (scores, allC, recs) =>
      ((platform, scoreResult) :: scores,
       isCompliant && allC,
       (if isCompliant then []
        else scoreResult.recommendations.map fun r => platform ++ ": " ++ r) ++ recs)

/-- Source `StyleComplianceNode.exec` (lines 23-88): short-circuit to
`manual_review` once `revision_count >= max_revisions` (5), otherwise score
the batch, return `pass` when everything is compliant and `revise` (with the
revision count incremented exactly once) when not. -/
def styleComplianceExec (revisionCount : Nat)
    (contentPieces : List (String × String)) (dsv : List (String × Nat))
    (scoreFn : String → String → ScoreResult) : ExecResult :=
  if 5 ≤ revisionCount then
    { complianceStatus := "manual_review"
      reason := "Maximum revision count (5) reached"
      authenticityScores := []
      recommendations := []
      revisionCount := none
      allCompliant := none }
  else
    if (complianceLoop dsv scoreFn contentPieces).2.1 then
      { complianceStatus := "pass"
        reason := "All content meets authenticity and quality standards"
        authenticityScores := (complianceLoop dsv scoreFn contentPieces).1
        recommendations := (complianceLoop dsv scoreFn contentPieces).2.2
        revisionCount := some revisionCount
        allCompliant := some true }
    else
      { complianceStatus := "revise"
        reason := "Content needs revision to meet authenticity standards"
        authenticityScores := (complianceLoop dsv scoreFn contentPieces).1
        recommendations := (complianceLoop dsv scoreFn contentPieces).2.2
        revisionCount := some (revisionCount + 1)
        allCompliant := some false }

/-- The `quality_control` slice of the shared store that `post` updates. -/
structure QualityControl where
  revisionCount : Nat
  complianceStatus : String
  maxRevisionsReached : Bool
  authenticityScores : List (String × ScoreResult)
deriving DecidableEq

/-- Source `StyleComplianceNode.post` (lines 115-159): write the revision
count, status and scores back into `quality_control`, mark the stage
completed, and return the routing action.  The first statement reads
`exec_res["revision_count"]` (line 120); on the `manual_review` early return
that key is absent, so the call raises `KeyError` before updating anything,
modelled by `Except.error`. -/
def stylePost (execRes : ExecResult) (_qc : QualityControl)
    (completedStages : List String) :
    Except String (QualityControl × List String × String) :=
  match execRes.revisionCount with
  | none => .error "KeyError: revision_count"
  | some rc =>
    let qc2 : QualityControl :=
      { revisionCount := rc
        complianceStatus := execRes.complianceStatus
        maxRevisionsReached := 5 ≤ rc
        authenticityScores := execRes.authenticityScores }
    let completed2 := completedStages ++ ["style_compliance"]
    let action :=
      if execRes.complianceStatus == "pass" then "approved"
      else if execRes.complianceStatus == "manual_review" then "manual_review"
      else "revise"
    .ok (qc2, completed2, action)

/-! Concrete inputs used by the claims below. -/

/-- Input of the multi-pattern composition claim (spec section 8). -/
def c6Text : List Char :=
  "It's not just a product—it's a revolution! And it's not a bug; it's a feature.".toList

/-- Input on which the sanitizer increases the violation total: a single em
dash inside a contrast sentence that holds no comma or semicolon. -/
def c1Text : List Char := "It's not just a product—it's a revolution.".toList

/-- Detection report for `c1Text`. -/
def c1Report : DetectionReport := detectPatterns c1Text none

/-- Input on which a targeted rule's count grows under sanitization: one
rewritable rhetorical contrast, plus two em-dash contrast lines without a
trailing period (the fix pattern needs one, the detection pattern does not). -/
def c2Text : List Char :=
  ("It's not just A; it's B.\nIt's not just a thing—it's one\n" ++
   "It's not just a gadget—it's two").toList

/-- Detection report for `c2Text`. -/
def c2Report : DetectionReport := detectPatterns c2Text none

/-- Result of sanitizing `c2Text` against its own report. -/
def c2Result : List Char × TransformationLog := sanitizeContent c2Text c2Report none

/-! Helper lemmas.  The first group shows the fuel parameters of the matcher
are inessential: above the structural bound (`stackW` for the match stack,
the input length for the scans) every fuel value gives the same result, so
the bounds used by `matchHere`, `findIter` and `subAll` never run dry. -/

/-- Congruence for `List.findSome?` under pointwise equal functions. -/
theorem findSome?_congr {α β : Type} {f g : α → Option β} :
    ∀ l : List α, (∀ a ∈ l, f a = g a) → l.findSome? f = l.findSome? g
  | [], _ => rfl
  | a :: as, h => by
    rw [List.findSome?_cons, List.findSome?_cons, h a (List.mem_cons_self a as)]
    cases g a with
    | some b => rfl
    | none => exact findSome?_congr as fun x hx => h x (List.mem_cons_of_mem a hx)

/-- Fuel irrelevance of the matcher: any two fuel values above the stack
weight produce the same answer. -/
theorem tryM_fuel_mono :
    ∀ f1 f2 : Nat, ∀ K : List RE, ∀ s : List Char, ∀ g : Groups,
      stackW K < f1 → stackW K < f2 → tryM f1 K s g = tryM f2 K s g := by
  intro f1
  induction f1 with
  | zero => intro f2 K s g h1 h2; omega
  | succ f1 ih =>
    intro f2 K s g h1 h2
    cases f2 with
    | zero => omega
    | succ f2 =>
      cases K with
      | nil => rfl
      | cons r K =>
        have hK : stackW (r :: K) = r.w + stackW K := rfl
        cases r with
        | lit cs =>
          simp only [tryM]
          cases eatLitCI cs s with
          | some s2 => exact ih f2 K s2 g (by simp [RE.w] at hK; omega) (by simp [RE.w] at hK; omega)
          | none => rfl
        | cls cs =>
          simp only [tryM]
          cases s with
          | nil => rfl
          | cons c s2 =>
            by_cases hc : cs.contains c <;> simp only [hc, if_true, if_false]
            · exact ih f2 K s2 g (by simp [hK, RE.w] at h1 ⊢; omega)
                (by simp [hK, RE.w] at h2 ⊢; omega)
            · rfl
        | seq a b =>
          simp only [tryM]
          exact ih f2 (a :: b :: K) s g
            (by simp [stackW, RE.w] at h1 ⊢; omega)
            (by simp [stackW, RE.w] at h2 ⊢; omega)
        | alt a b =>
          simp only [tryM]
          rw [ih f2 (a :: K) s g (by simp [stackW, RE.w] at h1 ⊢; omega)
            (by simp [stackW, RE.w] at h2 ⊢; omega)]
          cases tryM f2 (a :: K) s g with
          | some r => rfl
          | none =>
            exact ih f2 (b :: K) s g
              (by simp [stackW, RE.w] at h1 ⊢; omega)
              (by simp [stackW, RE.w] at h2 ⊢; omega)
        | wsStar =>
          simp only [tryM]
          exact findSome?_congr _ fun k _ => ih f2 K (s.drop k) g
            (by simp [stackW, RE.w] at h1 ⊢; omega)
            (by simp [stackW, RE.w] at h2 ⊢; omega)
        | wsPlus =>
          simp only [tryM]
          exact findSome?_congr _ fun k _ => ih f2 K (s.drop k) g
            (by simp [stackW, RE.w] at h1 ⊢; omega)
            (by simp [stackW, RE.w] at h2 ⊢; omega)
        | dotPlusLazy gi =>
          simp only [tryM]
          exact findSome?_congr _ fun i _ => ih f2 K (s.drop (i + 1)) _
            (by simp [stackW, RE.w] at h1 ⊢; omega)
            (by simp [stackW, RE.w] at h2 ⊢; omega)

/-- Fuel irrelevance of the `finditer` scan above the input length. -/
theorem findIterAux_fuel_mono (r : RE) :
    ∀ f1 f2 : Nat, ∀ s : List Char, ∀ pos : Nat,
      s.length < f1 → s.length < f2 →
      findIterAux r f1 s pos = findIterAux r f2 s pos := by
  intro f1
  induction f1 with
  | zero => intro f2 s pos h1 h2; omega
  | succ f1 ih =>
    intro f2 s pos h1 h2
    cases f2 with
    | zero => omega
    | succ f2 =>
      cases s with
      | nil => rfl
      | cons c tail =>
        simp only [findIterAux]
        cases matchHere r (c :: tail) with
        | some lg =>
          cases lg with
          | mk len g =>
            by_cases hlen : len = 0 <;> simp only [hlen, if_true, if_false, reduceIte]
            · rw [ih f2 tail (pos + 1) (by simp at h1 ⊢; omega) (by simp at h2 ⊢; omega)]
            · rw [ih f2 ((c :: tail).drop len) (pos + len)
                (by simp at h1 ⊢; omega) (by simp at h2 ⊢; omega)]
        | none =>
          exact ih f2 tail (pos + 1) (by simp at h1 ⊢; omega) (by simp at h2 ⊢; omega)

/-- Fuel irrelevance of the `sub` scan above the input length. -/
theorem subAllAux_fuel_mono (r : RE) (repl : Groups → List Char → List Char) :
    ∀ f1 f2 : Nat, ∀ s : List Char,
      s.length < f1 → s.length < f2 →
      subAllAux r repl f1 s = subAllAux r repl f2 s := by
  intro f1
  induction f1 with
  | zero => intro f2 s h1 h2; omega
  | succ f1 ih =>
    intro f2 s h1 h2
    cases f2 with
    | zero => omega
    | succ f2 =>
      cases s with
      | nil => rfl
      | cons c tail =>
        simp only [subAllAux]
        cases matchHere r (c :: tail) with
        | some lg =>
          cases lg with
          | mk len g =>
            by_cases hlen : len = 0 <;> simp only [hlen, if_true, if_false, reduceIte]
            · rw [ih f2 tail (by simp at h1 ⊢; omega) (by simp at h2 ⊢; omega)]
            · rw [ih f2 ((c :: tail).drop len)
                (by simp at h1 ⊢; omega) (by simp at h2 ⊢; omega)]
        | none =>
          rw [ih f2 tail (by simp at h1 ⊢; omega) (by simp at h2 ⊢; omega)]

/-- Unfolding of the severity accumulation loop of
`_calculate_severity_score` into two sums. -/
theorem sevFoldl_eq (l : List (String × ViolationDetail)) (a : ℚ) (b : Nat) :
    l.foldl (fun (acc : ℚ × Nat) e =>
        (acc.1 + (e.2.count : ℚ) * severityWeight e.2.severity, acc.2 + e.2.count))
      (a, b) =
    (a + (l.map fun e => (e.2.count : ℚ) * severityWeight e.2.severity).sum,
     b + (l.map fun e => e.2.count).sum) := by
  induction l generalizing a b with
  | nil => simp
  | cons x xs ih =>
    simp only [List.foldl_cons, List.map_cons, List.sum_cons, ih]
    rw [Prod.mk.injEq]
    constructor <;> ring

/-- Closed form of `_calculate_severity_score`: the count-weighted severity
sum divided by the total count, zero when there is no violation. -/
theorem calcSeverityScore_eq (l : List (String × ViolationDetail)) :
    calcSeverityScore l =
      if 0 < (l.map fun e => e.2.count).sum then
        (l.map fun e => (e.2.count : ℚ) * severityWeight e.2.severity).sum /
          (((l.map fun e => e.2.count).sum : Nat) : ℚ)
      else 0 := by
  unfold calcSeverityScore
  rw [sevFoldl_eq]
  simp only [zero_add]
  split
  · next h => rw [Nat.max_eq_left (by omega)]
  · rfl

/-- Every rule of the pattern library is tagged `critical`. -/
theorem patterns_severity_critical : ∀ pi ∈ patterns, pi.severity = "critical" := by
  intro pi h
  fin_cases h <;> rfl

/-- Every violation entry a detection run produces carries severity
`critical`. -/
theorem detectViolations_critical (t : List Char) :
    ∀ e ∈ detectViolations t, e.2.severity = "critical" := by
  intro e he
  obtain ⟨pi, hpi, rfl⟩ := List.mem_map.mp he
  exact patterns_severity_critical pi hpi

/-- With every severity `critical` the weighted sum collapses to the plain
count sum. -/
theorem weighted_sum_critical (l : List (String × ViolationDetail))
    (h : ∀ e ∈ l, e.2.severity = "critical") :
    (l.map fun e => (e.2.count : ℚ) * severityWeight e.2.severity).sum =
      (((l.map fun e => e.2.count).sum : Nat) : ℚ) := by
  induction l with
  | nil => simp
  | cons x xs ih =>
    simp only [List.map_cons, List.sum_cons, Nat.cast_add]
    rw [h x (by simp), ih fun e he => h e (by simp [he])]
    simp [severityWeight]

/-- Every rule whose count the report holds is zero when all entries count
zero (the lookup defaults to zero for an absent rule). -/
theorem reportCount_zero (rep : DetectionReport)
    (h : ∀ e ∈ rep.violations, e.2.count = 0) (name : String) :
    reportCount rep name = 0 := by
  unfold reportCount
  cases hf : rep.violations.find? fun e => e.1 == name with
  | none => rfl
  | some e => exact h e (List.mem_of_find?_eq_some hf)

/-- The batch loop reports `all_compliant` exactly when every item passes
the compliance test of line 59-62. -/
theorem complianceLoop_all (dsv : List (String × Nat))
    (f : String → String → ScoreResult) :
    ∀ cp : List (String × String),
      (complianceLoop dsv f cp).2.1 = true ↔
        ∀ pc ∈ cp, 80 ≤ (f pc.1 pc.2).authenticityScore ∧ dsvTotal dsv pc.1 = 0
  | [] => by simp [complianceLoop]
  | (platform, content) :: rest => by
    have ih := complianceLoop_all dsv f rest
    simp only [complianceLoop, List.mem_cons]
    cases hr : complianceLoop dsv f rest with
    | mk scores r2 =>
      cases r2 with
      | mk allC recs =>
        rw [hr] at ih
        simp only at ih ⊢
        rw [Bool.and_eq_true, Bool.and_eq_true, decide_eq_true_eq, decide_eq_true_eq, ih]
        constructor
        · rintro ⟨⟨h1, h2⟩, h3⟩ pc hpc
          rcases hpc with rfl | hpc
          · exact ⟨h1, h2⟩
          · exact h3 pc hpc
        · intro hall
          exact ⟨hall (platform, content) (Or.inl rfl), fun pc hpc => hall pc (Or.inr hpc)⟩

/-! The claims. -/

/-- C7: the detector never fails on any input — `detect_patterns` is total
and always returns a report with an entry for each of the seven rules — and
on the empty string every rule counts zero and the total is zero. -/
theorem c7_detector_total_and_empty :
    (∀ (t : List Char) (bv : Option BrandVoice),
      (detectPatterns t bv).violations.map Prod.fst =
        ["em_dash", "rhetorical_contrast", "antithesis", "paradiastole",
         "reframing_contrast", "chiasmus", "tagline_frame"]) ∧
    (∀ e ∈ (detectPatterns [] none).violations, e.2.count = 0) ∧
    (detectPatterns [] none).totalViolations = 0 :=
  ⟨fun _ _ => rfl, by decide, by decide⟩

/-- C8: for every input and brand voice, the report's `total_violations` is
the sum of the per-rule counts, and `severity_score` is the count-weighted
mean of the matched rules' severity weights, equal to 0 (not NaN) when the
total is zero. -/
theorem c8_report_invariants (t : List Char) (bv : Option BrandVoice) :
    (detectPatterns t bv).totalViolations =
      ((detectPatterns t bv).violations.map fun e => e.2.count).sum ∧
    (detectPatterns t bv).severityScore =
      (if 0 < (detectPatterns t bv).totalViolations then
        ((detectPatterns t bv).violations.map fun e =>
          (e.2.count : ℚ) * severityWeight e.2.severity).sum /
          ((detectPatterns t bv).totalViolations : ℚ)
      else 0) := by
  refine ⟨rfl, ?_⟩
  exact calcSeverityScore_eq (detectViolations t)

/-- C1: the claim `residual_violations <= report.total_violations` FAILS on
the code.  On `c1Text` the report totals one violation (the em dash; the
contrast patterns need a comma or semicolon, and there is none), but the
em-dash fix rewrites the dash to `", "`, which manufactures a
rhetorical-contrast and an antithesis match: the mandatory re-detection run
stores `final_violations = 2 > 1`. -/
theorem c1_residual_exceeds_total :
    c1Report.totalViolations = 1 ∧
    (sanitizeContent c1Text c1Report none).2.finalViolations = 2 :=
  ⟨by decide, by decide⟩

/-- C2: the per-targeted-rule non-regression claim FAILS on the code.  On
`c2Text` the report counts one `rhetorical_contrast`; the sanitizer targets
it (the fix runs, rewrites the one occurrence and records
`rhetorical_contrast_fix`), yet re-detection counts two `rhetorical_contrast`
violations: the em-dash fix turned the two dash lines into comma contrasts
that the rhetorical fix cannot rewrite (its pattern needs a trailing period,
the detection pattern does not). -/
theorem c2_targeted_rule_count_increases :
    reportCount c2Report "rhetorical_contrast" = 1 ∧
    c2Result.2.transformationsApplied = ["em_dash_removal", "rhetorical_contrast_fix"] ∧
    reportCount (detectPatterns c2Result.1 none) "rhetorical_contrast" = 2 :=
  ⟨by decide, by decide, by decide⟩

/-- C3: with `revision_count >= max_revisions` (5) the `exec` step returns
`manual_review` whatever the scorer would say — the result is the same for
any two scoring functions, so no authenticity score is consulted, and the
`authenticity_scores` it returns are empty (the loop never ran). -/
theorem c3_revision_budget_terminal (rc : Nat) (cp : List (String × String))
    (dsv : List (String × Nat)) (f g : String → String → ScoreResult)
    (h : 5 ≤ rc) :
    styleComplianceExec rc cp dsv f = styleComplianceExec rc cp dsv g ∧
    (styleComplianceExec rc cp dsv f).complianceStatus = "manual_review" ∧
    (styleComplianceExec rc cp dsv f).authenticityScores = [] := by
  unfold styleComplianceExec
  simp only [if_pos h]
  exact ⟨trivial, trivial, trivial⟩

/-- Witness for C3 at a concrete seeded controller: `revision_count = 5`,
one platform, two very different scorers. -/
theorem c3_revision_budget_terminal_witness :
    5 ≤ 5 ∧
    (styleComplianceExec 5 [("platformA", "some text")] [("platformA", 3)]
        (fun _ _ => ⟨0, ["rewrite it"]⟩) =
      styleComplianceExec 5 [("platformA", "some text")] [("platformA", 3)]
        (fun _ _ => ⟨100, []⟩) ∧
      (styleComplianceExec 5 [("platformA", "some text")] [("platformA", 3)]
        (fun _ _ => ⟨0, ["rewrite it"]⟩)).complianceStatus = "manual_review" ∧
      (styleComplianceExec 5 [("platformA", "some text")] [("platformA", 3)]
        (fun _ _ => ⟨0, ["rewrite it"]⟩)).authenticityScores = []) :=
  ⟨by decide, c3_revision_budget_terminal 5 _ _ _ _ (by decide)⟩

/-- C4: below the revision budget, the verdict is `pass` exactly when every
item of the batch is compliant — its authenticity score is at least 80
(so exactly 80 passes and anything below does not) and its violation total
is zero — and otherwise the verdict is `revise`. -/
theorem c4_compliance_gate (rc : Nat) (cp : List (String × String))
    (dsv : List (String × Nat)) (f : String → String → ScoreResult)
    (h : rc < 5) :
    ((styleComplianceExec rc cp dsv f).complianceStatus = "pass" ↔
      ∀ pc ∈ cp, 80 ≤ (f pc.1 pc.2).authenticityScore ∧ dsvTotal dsv pc.1 = 0) ∧
    ((styleComplianceExec rc cp dsv f).complianceStatus = "pass" ∨
      (styleComplianceExec rc cp dsv f).complianceStatus = "revise") := by
  have hn : ¬ 5 ≤ rc := by omega
  by_cases hac : (complianceLoop dsv f cp).2.1 = true
  · simp only [styleComplianceExec, if_neg hn, hac, if_true]
    exact ⟨⟨fun _ => (complianceLoop_all dsv f cp).mp hac, fun _ => trivial⟩, Or.inl trivial⟩
  · simp only [styleComplianceExec, if_neg hn, hac, if_false, Bool.false_eq_true]
    refine ⟨⟨fun hfalse => absurd hfalse (by decide), fun hall => ?_⟩, Or.inr trivial⟩
    exact absurd ((complianceLoop_all dsv f cp).mpr hall) hac

/-- Witness for C4: one item scoring exactly 80 with no violations passes
(the boundary case of the claim). -/
theorem c4_compliance_gate_witness :
    0 < 5 ∧
    ((styleComplianceExec 0 [("blog", "clean text")] [("blog", 0)]
        (fun _ _ => ⟨80, []⟩)).complianceStatus = "pass" ↔
      ∀ pc ∈ [("blog", "clean text")],
        80 ≤ ((fun (_ : String) (_ : String) => (⟨80, []⟩ : ScoreResult)) pc.1 pc.2).authenticityScore ∧
        dsvTotal [("blog", 0)] pc.1 = 0) ∧
    ((styleComplianceExec 0 [("blog", "clean text")] [("blog", 0)]
        (fun _ _ => ⟨80, []⟩)).complianceStatus = "pass" ∨
      (styleComplianceExec 0 [("blog", "clean text")] [("blog", 0)]
        (fun _ _ => ⟨80, []⟩)).complianceStatus = "revise") :=
  ⟨by decide, c4_compliance_gate 0 _ _ _ (by decide)⟩

/-- C5: per `exec` call, a `revise` verdict carries `revision_count + 1`
(incremented once, however many items failed), a `pass` verdict carries the
unchanged count — but on the `manual_review` fast path the returned
dictionary has NO `revision_count` key at all, and `post` (which reads
`exec_res["revision_count"]` unconditionally) raises `KeyError` instead of
completing with the count unchanged. -/
theorem c5_revision_count_per_verdict (rc : Nat) (cp : List (String × String))
    (dsv : List (String × Nat)) (f : String → String → ScoreResult) :
    ((styleComplianceExec rc cp dsv f).complianceStatus = "revise" →
      (styleComplianceExec rc cp dsv f).revisionCount = some (rc + 1)) ∧
    ((styleComplianceExec rc cp dsv f).complianceStatus = "pass" →
      (styleComplianceExec rc cp dsv f).revisionCount = some rc) ∧
    (5 ≤ rc →
      (styleComplianceExec rc cp dsv f).revisionCount = none ∧
      ∀ qc stages, stylePost (styleComplianceExec rc cp dsv f) qc stages =
        Except.error "KeyError: revision_count") := by
  by_cases h5 : 5 ≤ rc
  · refine ⟨fun hs => ?_, fun hs => ?_, fun _ => ⟨?_, fun qc stages => ?_⟩⟩
    · simp only [styleComplianceExec, if_pos h5] at hs
      exact absurd hs (by decide)
    · simp only [styleComplianceExec, if_pos h5] at hs
      exact absurd hs (by decide)
    · simp only [styleComplianceExec, if_pos h5]
    · simp only [styleComplianceExec, if_pos h5, stylePost]
  · have hn := h5
    by_cases hac : (complianceLoop dsv f cp).2.1 = true
    · refine ⟨fun hs => ?_, fun _ => ?_, fun h5' => absurd h5' h5⟩
      · simp only [styleComplianceExec, if_neg hn, hac, if_true] at hs
        exact absurd hs (by decide)
      · simp only [styleComplianceExec, if_neg hn, hac, if_true]
    · refine ⟨fun _ => ?_, fun hs => ?_, fun h5' => absurd h5' h5⟩
      · simp only [styleComplianceExec, if_neg hn, hac, if_false, Bool.false_eq_true]
      · simp only [styleComplianceExec, if_neg hn, hac, if_false, Bool.false_eq_true] at hs
        exact absurd hs (by decide)

/-- C6 counterexample: on the quoted input the detector's total is NOT 3. -/
theorem c6_total_is_not_three :
    ¬ (detectPatterns c6Text none).totalViolations = 3 := by decide

/-- C6 as amended: the quoted input yields `em_dash` 1,
`rhetorical_contrast` 1 and `antithesis` 1 as claimed, but `tagline_frame`
also matches ("It's not just" + "a product" reaching the later semicolon),
so `total_violations = 4`. -/
theorem c6_detect_counts :
    reportCount (detectPatterns c6Text none) "em_dash" = 1 ∧
    reportCount (detectPatterns c6Text none) "rhetorical_contrast" = 1 ∧
    reportCount (detectPatterns c6Text none) "antithesis" = 1 ∧
    reportCount (detectPatterns c6Text none) "tagline_frame" = 1 ∧
    (detectPatterns c6Text none).totalViolations = 4 :=
  ⟨by decide, by decide, by decide, by decide, by decide⟩

/-- C10: a report whose per-rule counts are all zero makes the sanitizer the
identity: every rewrite branch is guarded by a positive reported count, so
the text comes back unchanged and the log records no transformation. -/
theorem c10_sanitize_identity (t : List Char) (rep : DetectionReport)
    (bv : Option BrandVoice) (h : ∀ e ∈ rep.violations, e.2.count = 0) :
    (sanitizeContent t rep bv).1 = t ∧
    (sanitizeContent t rep bv).2.transformationsApplied = [] ∧
    (sanitizeContent t rep bv).2.patternsRemoved = [] := by
  have hc := reportCount_zero rep h
  simp only [sanitizeContent, patternFixes, List.foldl, sanStep, hc,
    lt_self_iff_false, if_false, reduceIte]
  exact ⟨trivial, trivial, trivial⟩

/-- Witness for C10: sanitizing clean text against its own (all-zero) report
returns it unchanged with an empty log. -/
theorem c10_sanitize_identity_witness :
    (∀ e ∈ (detectPatterns "A plain sentence.".toList none).violations, e.2.count = 0) ∧
    ((sanitizeContent "A plain sentence.".toList
        (detectPatterns "A plain sentence.".toList none) none).1 =
          "A plain sentence.".toList ∧
      (sanitizeContent "A plain sentence.".toList
        (detectPatterns "A plain sentence.".toList none) none).2.transformationsApplied = [] ∧
      (sanitizeContent "A plain sentence.".toList
        (detectPatterns "A plain sentence.".toList none) none).2.patternsRemoved = []) :=
  ⟨by decide, c10_sanitize_identity _ _ _ (by decide)⟩

/-- C9: every built-in rule is `critical` with weight 1, so the
count-weighted mean degenerates: the severity score is exactly 1 whenever
the total is positive and 0 otherwise. -/
theorem c9_severity_degenerate (t : List Char) (bv : Option BrandVoice) :
    (detectPatterns t bv).severityScore =
      if 0 < (detectPatterns t bv).totalViolations then (1 : ℚ) else 0 := by
  have h := calcSeverityScore_eq (detectViolations t)
  rw [weighted_sum_critical (detectViolations t) (detectViolations_critical t)] at h
  show calcSeverityScore (detectViolations t) =
    if 0 < (List.map (fun e => e.2.count) (detectViolations t)).sum then (1 : ℚ) else 0
  rw [h]
  split
  · next hpos =>
    exact div_self (by exact_mod_cast Nat.pos_iff_ne_zero.mp hpos)
  · rfl

end DeadlySins
